import Mathlib

/-!
Shallow embedding of the retrieval-augmented question-answering service
(`main.py`, `openai_service.py`, `vector_store.py`).

Conventions of the embedding:
* Python floats carrying confidence scores are modelled as `Rat`
  (no claim here depends on floating-point rounding).
* Timestamps are natural numbers of seconds; the monotonic timer used by
  `cachetools` is passed explicitly as a `now` argument to each operation.
* External collaborators (OpenAI embedding endpoint, Qdrant index, OpenAI
  chat completion, SHA-256) are oracles passed as function arguments;
  fallible ones return `Except`.
* Python exceptions are modelled with `Except`; the outbound network calls a
  code path performs are recorded in an explicit event list so that claims
  about "no further calls to X" can be stated.
-/

namespace IAI

/-- The result dictionary built by `OpenAIService.answer_question`:
`{"answer": ..., "confidence": ...}` (openai_service.py lines 60-63 and
106-109). -/
structure QAResult where
  answer : String
  confidence : Rat
deriving DecidableEq

/-- The fixed sentinel returned when no context is provided
(openai_service.py lines 60-63). -/
def insufficientContextResult : QAResult :=
  ⟨"I don't have enough information to answer this question.", 0⟩

/-- Python `str.lower`, modelled character-wise (ASCII case mapping). -/
def pyLower (s : String) : String :=
  String.mk (s.data.map Char.toLower)

/-- Python `str.strip()`: remove leading and trailing whitespace. -/
def pyStrip (s : String) : String :=
  String.mk (((s.data.dropWhile Char.isWhitespace).reverse.dropWhile
    Char.isWhitespace).reverse)

/-- Question normalization used for cache keys:
`normalized_question = question.lower()` (openai_service.py line 48). -/
def normalizeQuestion (question : String) : String :=
  pyLower question

/-! ### The question cache

`self.question_cache = TTLCache(maxsize=1024, ttl=3600)`
(openai_service.py line 29).  `cachetools.TTLCache` is an LRU cache whose
entries additionally expire `ttl` seconds after (re-)insertion:

* membership (`in`) checks expiry but does not touch LRU order;
* item access (`cache[k]`) moves the entry to the most-recently-used end
  and does not refresh its expiry;
* assignment (`cache[k] = v`) first drops every expired entry, then — when
  the key is new and the cache is full — pops least-recently-used entries
  until there is room, and finally stores the entry at the
  most-recently-used end with expiry `now + ttl`.

The cache is modelled as a list of entries kept in LRU order: the head is
the least recently used entry. -/

/-- TTL of the question cache, in seconds (openai_service.py line 29). -/
def cacheTTL : Nat := 3600

/-- Maximum entry count of the question cache (openai_service.py line 29). -/
def cacheMaxsize : Nat := 1024

/-- One entry of the `TTLCache`: key, stored value and absolute expiry
time (insertion time + TTL). -/
structure CacheEntry where
  key : String
  value : QAResult
  expires : Nat
deriving DecidableEq

/-- The question cache, in least-recently-used-first order. -/
abbrev QuestionCache := List CacheEntry

/-- Find the entry stored under a key. -/
def lookupEntry : QuestionCache → String → Option CacheEntry
  | [], _ => none
  | e :: rest, k => if e.key = k then some e else lookupEntry rest k

/-- `key in cache` for `TTLCache`: present and not yet expired; LRU order
is not touched. -/
def cacheContains (c : QuestionCache) (k : String) (now : Nat) : Bool :=
  match lookupEntry c k with
  | some e => decide (now < e.expires)
  | none => false

/-- The combined read performed on a hit by `answer_question`
(openai_service.py lines 51-53): the membership test followed by
`cache[k]`, which returns the stored value and moves the entry to the
most-recently-used end without refreshing its expiry.  Returns `none`
when the membership test fails (absent or expired). -/
def cacheHit (c : QuestionCache) (k : String) (now : Nat) :
    Option (QAResult × QuestionCache) :=
  match lookupEntry c k with
  | some e =>
      if now < e.expires then
        some (e.value, (c.filter fun x => decide (x.key ≠ k)) ++ [e])
      else none
  | none => none

/-- `TTLCache.expire`: remove every entry whose expiry time has been
reached. -/
def expire (c : QuestionCache) (now : Nat) : QuestionCache :=
  c.filter fun e => decide (now < e.expires)

/-- `cache[k] = v` for `TTLCache`: drop expired entries; overwrite an
existing entry (moving it to the most-recently-used end), or insert a new
entry after evicting least-recently-used entries while the cache is full.
The new entry expires `cacheTTL` seconds from now. -/
def cachePut (c : QuestionCache) (k : String) (v : QAResult) (now : Nat) :
    QuestionCache :=
  if (lookupEntry (expire c now) k).isSome then
    ((expire c now).filter fun x => decide (x.key ≠ k)) ++
      [⟨k, v, now + cacheTTL⟩]
  else
    ((expire c now).drop ((expire c now).length + 1 - cacheMaxsize)) ++
      [⟨k, v, now + cacheTTL⟩]

/-! ### Language-model responses and pydantic validation

The chat completion returns a text payload; `answer_question` parses it
with `Answer.model_validate_json` against

```
class Answer(BaseModel):
    answer: str = Field(description="The answer to the question")
    confidence: float = Field(description="Confidence score between 0 and 1")
```

(openai_service.py lines 13-15).  Note that `Field(description=...)` adds
documentation only: pydantic checks that `answer` is a string and
`confidence` a number, and that both fields are present, but imposes no
range constraint on `confidence`. -/

/-- JSON values (the shape of a model response after JSON parsing). -/
inductive Json where
  | jnull : Json
  | jbool : Bool → Json
  | jnum : Rat → Json
  | jstr : String → Json
  | jarr : List Json → Json
  | jobj : List (String × Json) → Json

/-- A raw model response text: either well-formed JSON or text that JSON
parsing rejects.  The JSON grammar itself is external to the program, so a
response is modelled by its parse outcome. -/
inductive LMText where
  | json : Json → LMText
  | nonJson : String → LMText

/-- The validated `Answer` model. -/
structure Answer where
  answer : String
  confidence : Rat
deriving DecidableEq

/-- JSON object field lookup (later duplicate keys win, as in Python's
JSON parsing). -/
def getField : List (String × Json) → String → Option Json
  | [], _ => none
  | (k, v) :: rest, name =>
      match getField rest name with
      | some w => some w
      | none => if k = name then some v else none

/-- `Answer.model_validate_json` (openai_service.py line 104): the payload
must be valid JSON, must be an object, and must carry a string field
`answer` and a numeric field `confidence`.  No bound is checked on
`confidence`.  (Pydantic's lax coercion of numeric strings to floats is
not modelled; no claim depends on it.) -/
def modelValidateAnswer : LMText → Except String Answer
  | .nonJson _ => .error "Invalid JSON"
  | .json (Json.jobj fields) =>
      match getField fields "answer", getField fields "confidence" with
      | some (Json.jstr a), some (Json.jnum c) => .ok ⟨a, c⟩
      | _, _ => .error "Field required or of wrong type"
  | .json _ => .error "Input should be an object"

/-! ### `OpenAIService.answer_question` -/

/-- Errors raised out of `answer_question`: a failing chat-completion call
or a pydantic validation failure.  (The spec calls these
`QuestionAnsweringError` wrapping the cause, and `MalformedAnswerError`.) -/
inductive QAError where
  | lmFailure : String → QAError
  | malformedAnswer : String → QAError
deriving DecidableEq

/-- The error message carried by a `QAError` (Python `str(e)`). -/
def QAError.message : QAError → String
  | .lmFailure s => s
  | .malformedAnswer s => s

/-- Outbound network calls made while answering one question. -/
inductive CallEvent where
  | embedCall : String → CallEvent
  | indexSearch : CallEvent
  | lmCall : CallEvent
deriving DecidableEq

deriving instance DecidableEq for Except

/-- Outcome of `answer_question`: the returned value or raised error, the
question cache after the call, and the outbound calls performed. -/
structure QAOut where
  result : Except QAError QAResult
  cache : QuestionCache
  events : List CallEvent
deriving DecidableEq

/-- The system prompt of openai_service.py lines 67-79 (JSON braces
written escaped). -/
def systemPromptText : String :=
  "You are a helpful assistant that answers questions about the Democratic Republic of Georgia (1918-1921). \n            Use the provided context to answer the question. If you don't know the answer, say 'I don't know'.\n            \n            Your response should be in JSON format with two fields:\n            - answer: The answer to the question\n            - confidence: A confidence score between 0 and 1\n            \n            Example format:\n            \x7b\n                \"answer\": \"The answer to the question\",\n                \"confidence\": 0.95\n            \x7d\n            "

/-- The user prompt of openai_service.py lines 81-83:
`f"Context: {' '.join(context)}\n\n            Question: {question}"`. -/
def userPrompt (question : String) (context : List String) : String :=
  "Context: " ++ String.intercalate " " context ++
    "\n\n            Question: " ++ question

/-- The part of `answer_question` that runs on a cache miss
(openai_service.py lines 57-115): the empty-context short-circuit, the
chat-completion call, pydantic validation, and the cache insertion of a
successful result.  This is the code-level counterpart of the spec's
`AnswerComposer.compose` plus the subsequent cache `put`. -/
def composeAndCache (lm : String → String → Except String LMText)
    (now : Nat) (cache : QuestionCache) (question normalized : String)
    (context : List String) : QAOut :=
  if context.isEmpty then
    ⟨.ok insufficientContextResult, cache, []⟩
  else
    match lm systemPromptText (userPrompt question context) with
    | .error e => ⟨.error (.lmFailure e), cache, [.lmCall]⟩
    | .ok txt =>
        match modelValidateAnswer txt with
        | .error e => ⟨.error (.malformedAnswer e), cache, [.lmCall]⟩
        | .ok a =>
            let result : QAResult := ⟨a.answer, a.confidence⟩
            ⟨.ok result, cachePut cache normalized result now, [.lmCall]⟩

/-- `OpenAIService.answer_question` (openai_service.py lines 36-118):
normalize the question, serve a cached unexpired entry without any
outbound call, and otherwise fall through to `composeAndCache`.  `lm` is
the `openai.ChatCompletion.create` collaborator, taking the system and
user prompts. -/
def answerQuestion (lm : String → String → Except String LMText)
    (now : Nat) (cache : QuestionCache) (question : String)
    (context : List String) : QAOut :=
  match cacheHit cache (normalizeQuestion question) now with
  | some (v, touched) => ⟨.ok v, touched, []⟩
  | none => composeAndCache lm now cache question (normalizeQuestion question) context

/-! ### `VectorStore.similarity_search` and the `/ask` endpoint -/

/-- `VectorStore.similarity_search` (vector_store.py lines 122-152):
embed the query, then search the index for the `k` nearest vectors and
return their text payloads.  Failures of either collaborator call
propagate.  `embed` is the OpenAI embedding collaborator and `search` the
Qdrant search collaborator. -/
def similaritySearch (embed : String → Except String (List Rat))
    (search : List Rat → Nat → Except String (List String))
    (query : String) (k : Nat) :
    Except String (List String) × List CallEvent :=
  match embed query with
  | .error e => (.error e, [.embedCall query])
  | .ok v =>
      match search v k with
      | .error e => (.error e, [.embedCall query, .indexSearch])
      | .ok hits => (.ok hits, [.embedCall query, .indexSearch])

/-- Body of the `/ask` HTTP endpoint: `AnswerResponse(answer=...,
duration_seconds=...)` (main.py lines 51-53, 100-103). -/
structure AnswerResponse where
  answer : String
  duration_seconds : Nat
deriving DecidableEq

/-- The `HTTPException` raised on failure (main.py lines 108-111). -/
structure HTTPErrorResponse where
  status : Nat
  detail : String
deriving DecidableEq

/-- Outcome of one `/ask` request. -/
structure AskOut where
  response : Except HTTPErrorResponse AnswerResponse
  cache : QuestionCache
  events : List CallEvent
deriving DecidableEq

/-- The `/ask` endpoint `ask_question` (main.py lines 76-111): retrieval
first (`vector_store.similarity_search(request.question)`, with its
default `k = 5`), then `openai_service.answer_question` on the retrieved
documents; any exception is mapped to an HTTP 500 response.  `startTime`
and `endTime` are the two `time.time()` readings. -/
def askQuestion (embed : String → Except String (List Rat))
    (search : List Rat → Nat → Except String (List String))
    (lm : String → String → Except String LMText)
    (now startTime endTime : Nat) (cache : QuestionCache)
    (question : String) : AskOut :=
  match similaritySearch embed search question 5 with
  | (.error e, evs) =>
      ⟨.error ⟨500, "Error answering question: " ++ e⟩, cache, evs⟩
  | (.ok docs, evs) =>
      let out := answerQuestion lm now cache question docs
      match out.result with
      | .error e =>
          ⟨.error ⟨500, "Error answering question: " ++ e.message⟩,
            out.cache, evs ++ out.events⟩
      | .ok r =>
          ⟨.ok ⟨r.answer, endTime - startTime⟩, out.cache, evs ++ out.events⟩

/-! ### `VectorStore.add_documents` (vector_store.py lines 67-120)

The Qdrant collection is modelled as a list of stored points; `upsert`
replaces every point that shares an incoming id and appends new ids.  The
OpenAI embedding endpoint and SHA-256 (`hashlib.sha256`, a pure function
of the byte string) are oracles. -/

/-- `models.PointStruct(id=..., vector=..., payload={"text": doc})`
(vector_store.py lines 100-104). -/
structure IndexPoint where
  id : Nat
  vector : List Rat
  text : String
deriving DecidableEq

/-- The stored contents of the Qdrant collection. -/
abbrev VectorIndex := List IndexPoint

/-- Upsert of a single point: overwrite the point(s) with the same id, or
append the point when its id is new. -/
def upsertPoint (idx : VectorIndex) (p : IndexPoint) : VectorIndex :=
  if idx.any fun q => decide (q.id = p.id) then
    idx.map fun q => if q.id = p.id then p else q
  else idx ++ [p]

/-- `qdrant_client.upsert(collection_name=..., points=...)`
(vector_store.py lines 112-116): points are applied in order, a later
point with the same id winning. -/
def upsertPoints (idx : VectorIndex) (ps : List IndexPoint) : VectorIndex :=
  ps.foldl upsertPoint idx

/-- UTF-8 encoding of one character (code point to byte list). -/
def charUtf8 (c : Char) : List Nat :=
  let n := c.toNat
  if n < 128 then [n]
  else if n < 2048 then [192 + n / 64, 128 + n % 64]
  else if n < 65536 then [224 + n / 4096, 128 + (n / 64) % 64, 128 + n % 64]
  else [240 + n / 262144, 128 + (n / 4096) % 64, 128 + (n / 64) % 64,
    128 + n % 64]

/-- `doc.encode('utf-8')` (vector_store.py line 95). -/
def utf8Encode (s : String) : List Nat :=
  (s.data.map charUtf8).flatten

/-- Content-derived point id (vector_store.py lines 94-97):
`int(hashlib.sha256(doc.encode('utf-8')).hexdigest(), 16) % (2**63)`.
`sha256` is the collaborator computing the SHA-256 digest of a byte
string as a natural number (hexdigest read in base 16); being a function,
it is deterministic, so the id is a pure function of the text. -/
def pointId (sha256 : List Nat → Nat) (doc : String) : Nat :=
  sha256 (utf8Encode doc) % 2 ^ 63

/-- Outbound calls made by `add_documents`. -/
inductive IngestEvent where
  | embedCall : String → IngestEvent
  | upsertCall : List IndexPoint → IngestEvent
deriving DecidableEq

/-- The document loop of `add_documents` (vector_store.py lines 80-105):
skip documents that are empty after stripping — for those, no embedding
call happens — and build one point per remaining document.  A failing
embedding call aborts the loop and propagates. -/
def buildPoints (embed : String → Except String (List Rat))
    (sha256 : List Nat → Nat) :
    List String → Except String (List IndexPoint) × List IngestEvent
  | [] => (.ok [], [])
  | doc :: rest =>
      if pyStrip doc = "" then buildPoints embed sha256 rest
      else
        match embed doc with
        | .error e => (.error e, [.embedCall doc])
        | .ok vec =>
            match buildPoints embed sha256 rest with
            | (.error e, evs) => (.error e, .embedCall doc :: evs)
            | (.ok ps, evs) =>
                (.ok (⟨pointId sha256 doc, vec, doc⟩ :: ps),
                  .embedCall doc :: evs)

/-- `VectorStore.add_documents` (vector_store.py lines 67-120): return at
once on an empty input list; build the points, skipping blank documents;
and issue a single upsert only when at least one point was built. -/
def addDocuments (embed : String → Except String (List Rat))
    (sha256 : List Nat → Nat) (idx : VectorIndex)
    (documents : List String) :
    Except String VectorIndex × List IngestEvent :=
  if documents.isEmpty then (.ok idx, [])
  else
    match buildPoints embed sha256 documents with
    | (.error e, evs) => (.error e, evs)
    | (.ok points, evs) =>
        if points.isEmpty then (.ok idx, evs)
        else (.ok (upsertPoints idx points), evs ++ [.upsertCall points])

/-! ### Concrete collaborators and states used by witnesses and
counterexamples -/

/-- A language model that is never reached. -/
def lmNever : String → String → Except String LMText :=
  fun _ _ => .error "unreachable"

/-- A language model returning valid JSON whose confidence 2 lies outside
[0, 1]. -/
def lmConf2 : String → String → Except String LMText :=
  fun _ _ => .ok (.json (.jobj [("answer", .jstr "x"), ("confidence", .jnum 2)]))

/-- A language model returning a payload that is not valid JSON. -/
def lmNonJson : String → String → Except String LMText :=
  fun _ _ => .ok (.nonJson "oops")

/-- A language model returning the well-formed answer used by the C5
witness. -/
def lmGood : String → String → Except String LMText :=
  fun _ _ => .ok (.json (.jobj [("answer", .jstr "26 May 1918"), ("confidence", .jnum 1)]))

/-- An embedding collaborator that always succeeds. -/
def embedOk : String → Except String (List Rat) :=
  fun _ => .ok [1]

/-- An embedding collaborator whose transport always fails. -/
def embedDown : String → Except String (List Rat) :=
  fun _ => .error "embedding service unreachable"

/-- An index-search collaborator that always returns one passage. -/
def searchOk : List Rat → Nat → Except String (List String) :=
  fun _ _ => .ok ["ctx"]

/-- An index-search collaborator that always fails. -/
def searchDown : List Rat → Nat → Except String (List String) :=
  fun _ _ => .error "index unreachable"

/-- A cached result distinct from the sentinel. -/
def cachedOther : QAResult := ⟨"42", 1⟩

/-- A one-entry cache holding `"q"`, inserted so that it is unexpired at
time 50. -/
def cacheWithQ : QuestionCache := [⟨"q", cachedOther, 100⟩]

/-- A SHA-256 stand-in for witnesses. -/
def shaLen : List Nat → Nat := fun l => l.length

/-- Cache keys `"a"`, `"aa"`, `"aaa"`, ... (pairwise distinct). -/
def natKey (i : Nat) : String := String.mk (List.replicate (i + 1) 'a')

/-- A stock cached value. -/
def stockResult : QAResult := ⟨"r", 0⟩

/-- A cache of `n` distinct entries, all expiring at time 100. -/
def mkCache (n : Nat) : QuestionCache :=
  (List.range n).map fun i => ⟨natKey i, stockResult, 100⟩

/-! ## Lemmas about the cache model -/

theorem lookupEntry_eq_none_iff {l : QuestionCache} {k : String} :
    lookupEntry l k = none ↔ ∀ e ∈ l, e.key ≠ k := by
  induction l with
  | nil => simp [lookupEntry]
  | cons a rest ih =>
      by_cases h : a.key = k
      · simp [lookupEntry, h]
      · simp [lookupEntry, h, ih]

theorem lookupEntry_append_single {l : QuestionCache} {e : CacheEntry}
    (h : ∀ x ∈ l, x.key ≠ e.key) : lookupEntry (l ++ [e]) e.key = some e := by
  induction l with
  | nil => simp [lookupEntry]
  | cons a rest ih =>
      have ha : a.key ≠ e.key := h a (List.mem_cons_self a rest)
      simp only [List.cons_append, lookupEntry, if_neg ha]
      exact ih fun x hx => h x (List.mem_cons_of_mem a hx)

theorem exists_key_of_lookup_isSome {l : QuestionCache} {k : String}
    (h : (lookupEntry l k).isSome) : ∃ e ∈ l, e.key = k := by
  by_contra hc
  push_neg at hc
  rw [lookupEntry_eq_none_iff.mpr hc] at h
  simp at h

/-- After `cachePut`, the key is present with the just-stored value and an
expiry `cacheTTL` seconds after the insertion time. -/
theorem lookupEntry_cachePut_self (c : QuestionCache) (k : String)
    (v : QAResult) (now : Nat) :
    lookupEntry (cachePut c k v now) k = some ⟨k, v, now + cacheTTL⟩ := by
  unfold cachePut
  by_cases h : (lookupEntry (expire c now) k).isSome
  · rw [if_pos h]
    exact lookupEntry_append_single fun x hx => by
      have := List.of_mem_filter hx
      simpa using this
  · rw [if_neg h]
    have hnone : lookupEntry (expire c now) k = none :=
      Option.not_isSome_iff_eq_none.mp h
    have hall := lookupEntry_eq_none_iff.mp hnone
    exact lookupEntry_append_single fun x hx =>
      hall x (List.drop_subset _ _ hx)

theorem cacheContains_cachePut_self (c : QuestionCache) (k : String)
    (v : QAResult) (now t : Nat) :
    cacheContains (cachePut c k v now) k t = decide (t < now + cacheTTL) := by
  simp [cacheContains, lookupEntry_cachePut_self]

/-- A read within the TTL of an insertion hits and returns the inserted
value. -/
theorem cacheHit_cachePut_self (c : QuestionCache) (k : String)
    (v : QAResult) (now t : Nat) (h : t < now + cacheTTL) :
    cacheHit (cachePut c k v now) k t =
      some (v, ((cachePut c k v now).filter fun x => decide (x.key ≠ k)) ++
        [⟨k, v, now + cacheTTL⟩]) := by
  simp [cacheHit, lookupEntry_cachePut_self, h]

theorem cacheHit_eq_none_of_contains_false {c : QuestionCache} {k : String}
    {now : Nat} (h : cacheContains c k now = false) :
    cacheHit c k now = none := by
  unfold cacheContains at h
  unfold cacheHit
  cases hl : lookupEntry c k with
  | none => rfl
  | some e =>
      rw [hl] at h
      simp only [decide_eq_false_iff_not] at h
      simp [h]

/-! ## Claims about the cache (C7) -/

/-- Claim C7: cache entries expire after the fixed TTL of 3600 seconds:
for every result inserted into the cache at time `insertTime`, a lookup of
the same key at any time strictly greater than `insertTime + cacheTTL`
behaves as a miss, whatever the prior cache contents. -/
theorem claim7_ttl_expiry (c : QuestionCache) (k : String) (v : QAResult)
    (insertTime t : Nat) (h : insertTime + cacheTTL < t) :
    cacheContains (cachePut c k v insertTime) k t = false := by
  rw [cacheContains_cachePut_self]
  simp only [decide_eq_false_iff_not]
  omega

/-- Witness for C7 at a concrete input: an entry inserted at time 0 is
absent at time 3601. -/
theorem claim7_witness :
    0 + cacheTTL < 3601 ∧
    cacheContains (cachePut [] "q" ⟨"a", 1⟩ 0) "q" 3601 = false :=
  ⟨by decide, claim7_ttl_expiry [] "q" ⟨"a", 1⟩ 0 3601 (by decide)⟩

/-! ## Claims about `answer_question` cache hits (C10, C2) -/

/-- Claim C10: on a cache hit, the composed answer is independent of the
context argument and of the language model: for any question whose
normalized form is present (unexpired) in the cache, two calls with any
two contexts and any two language models return the same cached result,
and neither performs any outbound call. -/
theorem claim10_cache_hit_context_independent
    (lm1 lm2 : String → String → Except String LMText) (now : Nat)
    (cache : QuestionCache) (q : String) (ctx1 ctx2 : List String)
    (v : QAResult) (touched : QuestionCache)
    (h : cacheHit cache (normalizeQuestion q) now = some (v, touched)) :
    answerQuestion lm1 now cache q ctx1 = ⟨.ok v, touched, []⟩ ∧
    answerQuestion lm2 now cache q ctx2 = ⟨.ok v, touched, []⟩ ∧
    answerQuestion lm1 now cache q ctx1 = answerQuestion lm2 now cache q ctx2 := by
  simp [answerQuestion, h]

/-- Witness for C10 at a concrete input: `"Q"` is cached (as `"q"`); a
call with a nonempty context and a call with an empty context under two
different language models agree and make no calls. -/
theorem claim10_witness :
    cacheHit cacheWithQ (normalizeQuestion "Q") 50 = some (cachedOther, cacheWithQ) ∧
    (answerQuestion lmNever 50 cacheWithQ "Q" ["c"] = ⟨.ok cachedOther, cacheWithQ, []⟩ ∧
     answerQuestion lmConf2 50 cacheWithQ "Q" [] = ⟨.ok cachedOther, cacheWithQ, []⟩ ∧
     answerQuestion lmNever 50 cacheWithQ "Q" ["c"] = answerQuestion lmConf2 50 cacheWithQ "Q" []) :=
  ⟨by decide, claim10_cache_hit_context_independent lmNever lmConf2 50
    cacheWithQ "Q" ["c"] [] cachedOther cacheWithQ (by decide)⟩

/-- Claim C2 counterexample: as stated over `answer_question`, the claim
fails for a question whose normalized form is already cached: with an
empty retrieval context, the call returns the cached result, which is not
the sentinel. -/
theorem claim2_counterexample :
    (answerQuestion lmNever 50 cacheWithQ "q" []).result = .ok cachedOther ∧
    cachedOther ≠ insufficientContextResult := by decide

/-- Claim C2 (amended: restricted to questions that miss the cache, the
situation in which the compose step of `answer_question` runs): for every
question whose normalized form is not in the cache, a call with an empty
retrieval context returns exactly the sentinel
`{answer: "I don't have enough information to answer this question.",
confidence: 0.0}`, performs no language-model call, and leaves the cache
unchanged — in particular the sentinel is never inserted into the
cache. -/
theorem claim2_empty_context_sentinel
    (lm : String → String → Except String LMText) (now : Nat)
    (cache : QuestionCache) (q : String)
    (h : cacheContains cache (normalizeQuestion q) now = false) :
    answerQuestion lm now cache q [] =
      ⟨.ok insufficientContextResult, cache, []⟩ := by
  have h2 : cacheHit cache (normalizeQuestion q) now = none :=
    cacheHit_eq_none_of_contains_false h
  simp [answerQuestion, h2, composeAndCache]

/-- Witness for C2 at a concrete input: on the empty cache, a question
with empty context yields the sentinel and the cache stays empty. -/
theorem claim2_witness :
    cacheContains [] (normalizeQuestion "q") 0 = false ∧
    answerQuestion lmNever 0 [] "q" [] =
      ⟨.ok insufficientContextResult, [], []⟩ :=
  ⟨by decide, claim2_empty_context_sentinel lmNever 0 [] "q" (by decide)⟩

/-! ## Claims about the `/ask` pipeline (C1, C4, C3) -/

/-- Claim C1 counterexample: the cache is consulted only inside
`answer_question`, after `ask_question` has already run retrieval.  At a
concrete input whose answer is cached and unexpired, the pipeline still
calls the embedding provider and the vector index (though it does return
the cached result and skips the language model). -/
theorem claim1_counterexample :
    cacheContains cacheWithQ (normalizeQuestion "q") 50 = true ∧
    CallEvent.embedCall "q" ∈
      (askQuestion embedOk searchOk lmNever 50 0 7 cacheWithQ "q").events ∧
    CallEvent.indexSearch ∈
      (askQuestion embedOk searchOk lmNever 50 0 7 cacheWithQ "q").events ∧
    (askQuestion embedOk searchOk lmNever 50 0 7 cacheWithQ "q").response =
      .ok ⟨"42", 7⟩ := by decide

/-- Claim C1 (amended: the cache hit avoids only the language-model call;
the embedding call and index search still happen first, because
`ask_question` runs retrieval before `answer_question`): for every
question whose normalized form is cached and unexpired and whose retrieval
succeeds, the pipeline returns the cached answer and its outbound calls
are exactly the embedding call and the index search — no language-model
call. -/
theorem claim1_cache_hit_no_lm_call
    (embed : String → Except String (List Rat))
    (search : List Rat → Nat → Except String (List String))
    (lm : String → String → Except String LMText)
    (now startTime endTime : Nat) (cache : QuestionCache) (q : String)
    (vec : List Rat) (docs : List String) (v : QAResult)
    (touched : QuestionCache)
    (hEmbed : embed q = .ok vec) (hSearch : search vec 5 = .ok docs)
    (hHit : cacheHit cache (normalizeQuestion q) now = some (v, touched)) :
    (askQuestion embed search lm now startTime endTime cache q).response =
      .ok ⟨v.answer, endTime - startTime⟩ ∧
    (askQuestion embed search lm now startTime endTime cache q).cache = touched ∧
    (askQuestion embed search lm now startTime endTime cache q).events =
      [.embedCall q, .indexSearch] := by
  simp [askQuestion, similaritySearch, hEmbed, hSearch, answerQuestion, hHit]

/-- Witness for the amended C1 at a concrete input. -/
theorem claim1_witness :
    (embedOk "q" = .ok [1] ∧ searchOk [1] 5 = .ok ["ctx"] ∧
     cacheHit cacheWithQ (normalizeQuestion "q") 50 = some (cachedOther, cacheWithQ)) ∧
    ((askQuestion embedOk searchOk lmNever 50 0 7 cacheWithQ "q").response =
      .ok ⟨cachedOther.answer, 7 - 0⟩ ∧
     (askQuestion embedOk searchOk lmNever 50 0 7 cacheWithQ "q").cache = cacheWithQ ∧
     (askQuestion embedOk searchOk lmNever 50 0 7 cacheWithQ "q").events =
      [.embedCall "q", .indexSearch]) :=
  ⟨⟨rfl, rfl, by decide⟩, claim1_cache_hit_no_lm_call embedOk searchOk lmNever
    50 0 7 cacheWithQ "q" [1] ["ctx"] cachedOther cacheWithQ rfl rfl (by decide)⟩

/-- Claim C4: for every question on which retrieval fails (the embedding
call or the index query raises), `ask_question` fails with an HTTP 500
error, returns no partial answer, leaves the cache unchanged, and never
reaches the language model. -/
theorem claim4_retrieval_failure
    (embed : String → Except String (List Rat))
    (search : List Rat → Nat → Except String (List String))
    (lm : String → String → Except String LMText)
    (now startTime endTime : Nat) (cache : QuestionCache) (q : String)
    (h : (∃ msg, embed q = .error msg) ∨
         (∃ vec msg, embed q = .ok vec ∧ search vec 5 = .error msg)) :
    (∃ err, (askQuestion embed search lm now startTime endTime cache q).response =
        .error err ∧ err.status = 500) ∧
    (askQuestion embed search lm now startTime endTime cache q).cache = cache ∧
    CallEvent.lmCall ∉
      (askQuestion embed search lm now startTime endTime cache q).events := by
  rcases h with ⟨msg, hm⟩ | ⟨vec, msg, hv, hm⟩
  · simp [askQuestion, similaritySearch, hm]
  · simp [askQuestion, similaritySearch, hv, hm]

/-- Witness for C4 at a concrete input: an unreachable embedding service
on a nonempty cache. -/
theorem claim4_witness :
    (∃ msg, embedDown "q" = .error msg) ∧
    ((∃ err, (askQuestion embedDown searchOk lmNever 50 0 7 cacheWithQ "q").response =
        .error err ∧ err.status = 500) ∧
     (askQuestion embedDown searchOk lmNever 50 0 7 cacheWithQ "q").cache = cacheWithQ ∧
     CallEvent.lmCall ∉
      (askQuestion embedDown searchOk lmNever 50 0 7 cacheWithQ "q").events) :=
  ⟨⟨"embedding service unreachable", rfl⟩,
    claim4_retrieval_failure embedDown searchOk lmNever 50 0 7 cacheWithQ "q"
      (Or.inl ⟨"embedding service unreachable", rfl⟩)⟩

/-- Claim C3 counterexample: the pydantic `Answer` model carries no range
constraint on `confidence` (`Field(description=...)` only), so a
well-formed JSON response with `confidence = 2` — outside [0, 1] — passes
validation: `answer_question` succeeds, returns confidence 2, and writes
the result into the cache, instead of failing with a validation error. -/
theorem claim3_counterexample :
    ¬ ((2 : Rat) ≤ 1) ∧
    (answerQuestion lmConf2 0 [] "q" ["c"]).result = .ok ⟨"x", 2⟩ ∧
    (answerQuestion lmConf2 0 [] "q" ["c"]).cache =
      [⟨"q", ⟨"x", 2⟩, cacheTTL⟩] := by decide

/-- Claim C3 (amended: confidence values outside [0, 1] are accepted —
pydantic checks only presence and type of the two fields; the rest of the
claim stands): for every language-model response that is non-JSON or
lacks the `answer` field, validation fails, `ask_question` surfaces the
failure to the external caller as an HTTP 500 error, and no entry is
written to the cache. -/
theorem claim3_malformed_rejected
    (embed : String → Except String (List Rat))
    (search : List Rat → Nat → Except String (List String))
    (lm : String → String → Except String LMText)
    (now startTime endTime : Nat) (cache : QuestionCache) (q : String)
    (vec : List Rat) (docs : List String) (txt : LMText)
    (hEmbed : embed q = .ok vec) (hSearch : search vec 5 = .ok docs)
    (hMiss : cacheContains cache (normalizeQuestion q) now = false)
    (hDocs : docs ≠ [])
    (hLM : lm systemPromptText (userPrompt q docs) = .ok txt)
    (hBad : (∃ s, txt = .nonJson s) ∨
            (∃ fields, txt = .json (.jobj fields) ∧
              getField fields "answer" = none)) :
    (∃ msg, modelValidateAnswer txt = .error msg) ∧
    (∃ err, (askQuestion embed search lm now startTime endTime cache q).response =
        .error err ∧ err.status = 500) ∧
    (askQuestion embed search lm now startTime endTime cache q).cache = cache := by
  have hval : ∃ msg, modelValidateAnswer txt = .error msg := by
    rcases hBad with ⟨s, rfl⟩ | ⟨fields, rfl, hf⟩
    · exact ⟨_, rfl⟩
    · simp only [modelValidateAnswer]
      rw [hf]
      cases getField fields "confidence" <;> exact ⟨_, rfl⟩
  obtain ⟨msg, hmsg⟩ := hval
  have hHit : cacheHit cache (normalizeQuestion q) now = none :=
    cacheHit_eq_none_of_contains_false hMiss
  have hDocs2 : docs.isEmpty = false := by
    cases docs with
    | nil => exact absurd rfl hDocs
    | cons d ds => rfl
  refine ⟨⟨msg, hmsg⟩, ?_, ?_⟩ <;>
    simp [askQuestion, similaritySearch, hEmbed, hSearch, answerQuestion,
      hHit, composeAndCache, hDocs2, hLM, hmsg]

/-- Witness for the amended C3 at a concrete input: a non-JSON payload on
the empty cache. -/
theorem claim3_witness :
    ((∃ s, LMText.nonJson "oops" = LMText.nonJson s) ∨
     (∃ fields, LMText.nonJson "oops" = .json (.jobj fields) ∧
        getField fields "answer" = none)) ∧
    ((∃ msg, modelValidateAnswer (.nonJson "oops") = .error msg) ∧
     (∃ err, (askQuestion embedOk searchOk lmNonJson 0 0 7 [] "q").response =
        .error err ∧ err.status = 500) ∧
     (askQuestion embedOk searchOk lmNonJson 0 0 7 [] "q").cache = []) :=
  ⟨Or.inl ⟨"oops", rfl⟩,
    claim3_malformed_rejected embedOk searchOk lmNonJson 0 0 7 [] "q" [1]
      ["ctx"] (.nonJson "oops") rfl rfl (by decide) (by decide) rfl
      (Or.inl ⟨"oops", rfl⟩)⟩

/-! ## Claim C5: case-fold cache normalization -/

/-- Claim C5: for two successive calls to `answer_question` whose
question texts case-fold to the same normalized key — the first one a
cache miss that succeeds through the language model and is cached, the
second one within the TTL — the second call is a cache hit: it returns
the same result, under any language model and any context, and performs
no outbound call.  Cache get and put both normalize with `lower()`. -/
theorem claim5_case_fold
    (lm lm2 : String → String → Except String LMText) (t1 t2 : Nat)
    (cache : QuestionCache) (q1 q2 : String) (ctx1 ctx2 : List String)
    (txt : LMText) (a : Answer)
    (hNorm : normalizeQuestion q2 = normalizeQuestion q1)
    (hMiss : cacheContains cache (normalizeQuestion q1) t1 = false)
    (hCtx : ctx1 ≠ [])
    (hLM : lm systemPromptText (userPrompt q1 ctx1) = .ok txt)
    (hVal : modelValidateAnswer txt = .ok a)
    (hT : t2 < t1 + cacheTTL) :
    (answerQuestion lm t1 cache q1 ctx1).result = .ok ⟨a.answer, a.confidence⟩ ∧
    (answerQuestion lm2 t2 (answerQuestion lm t1 cache q1 ctx1).cache q2 ctx2).result =
      .ok ⟨a.answer, a.confidence⟩ ∧
    (answerQuestion lm2 t2 (answerQuestion lm t1 cache q1 ctx1).cache q2 ctx2).events =
      [] := by
  have hHit1 : cacheHit cache (normalizeQuestion q1) t1 = none :=
    cacheHit_eq_none_of_contains_false hMiss
  have hCtx2 : ctx1.isEmpty = false := by
    cases ctx1 with
    | nil => exact absurd rfl hCtx
    | cons d ds => rfl
  have hout1 : answerQuestion lm t1 cache q1 ctx1 =
      ⟨.ok ⟨a.answer, a.confidence⟩,
        cachePut cache (normalizeQuestion q1) ⟨a.answer, a.confidence⟩ t1,
        [.lmCall]⟩ := by
    simp [answerQuestion, hHit1, composeAndCache, hCtx2, hLM, hVal]
  have hhit2 := cacheHit_cachePut_self cache (normalizeQuestion q1)
    ⟨a.answer, a.confidence⟩ t1 t2 hT
  refine ⟨by rw [hout1], ?_, ?_⟩ <;>
  · rw [hout1]
    simp only [answerQuestion, hNorm, hhit2]

/-- Witness for C5 at a concrete input: `"Hello"` then `"HELLO"`, ten
seconds apart. -/
theorem claim5_witness :
    (normalizeQuestion "HELLO" = normalizeQuestion "Hello" ∧
     cacheContains [] (normalizeQuestion "Hello") 0 = false ∧
     modelValidateAnswer (.json (.jobj [("answer", .jstr "26 May 1918"), ("confidence", .jnum 1)])) =
       .ok ⟨"26 May 1918", 1⟩ ∧
     (10 : Nat) < 0 + cacheTTL) ∧
    ((answerQuestion lmGood 0 [] "Hello" ["c"]).result = .ok ⟨"26 May 1918", 1⟩ ∧
     (answerQuestion lmNever 10 (answerQuestion lmGood 0 [] "Hello" ["c"]).cache "HELLO" []).result =
       .ok ⟨"26 May 1918", 1⟩ ∧
     (answerQuestion lmNever 10 (answerQuestion lmGood 0 [] "Hello" ["c"]).cache "HELLO" []).events =
       []) :=
  ⟨⟨by decide, by decide, by decide, by decide⟩,
    claim5_case_fold lmGood lmNever 0 10 [] "Hello" "HELLO" ["c"] []
      (.json (.jobj [("answer", .jstr "26 May 1918"), ("confidence", .jnum 1)]))
      ⟨"26 May 1918", 1⟩ (by decide) (by decide)
      (by decide) rfl (by decide) (by decide)⟩

/-! ## Lemmas about ingestion -/

/-- Upserting the same point twice is the same as upserting it once. -/
theorem upsertPoint_idem (idx : VectorIndex) (p : IndexPoint) :
    upsertPoint (upsertPoint idx p) p = upsertPoint idx p := by
  unfold upsertPoint
  by_cases h : idx.any (fun q => decide (q.id = p.id)) = true
  · rw [if_pos h]
    have hany : (idx.map fun q => if q.id = p.id then p else q).any
        (fun q => decide (q.id = p.id)) = true := by
      rw [List.any_eq_true] at h ⊢
      obtain ⟨q, hq, hid⟩ := h
      refine ⟨if q.id = p.id then p else q, List.mem_map_of_mem _ hq, ?_⟩
      simp only [decide_eq_true_eq] at hid
      simp [hid]
    rw [if_pos hany, List.map_map]
    congr 1
    funext q
    by_cases hq : q.id = p.id <;> simp [hq]
  · rw [if_neg h]
    have hall : ∀ q ∈ idx, q.id ≠ p.id := by
      intro q hq hid
      exact h (List.any_eq_true.mpr ⟨q, hq, by simp [hid]⟩)
    have hany2 : (idx ++ [p]).any (fun q => decide (q.id = p.id)) = true :=
      List.any_eq_true.mpr ⟨p, by simp, by simp⟩
    rw [if_pos hany2, List.map_append]
    have hfix : idx.map (fun q => if q.id = p.id then p else q) = idx := by
      have h1 : idx.map (fun q => if q.id = p.id then p else q) = idx.map id :=
        List.map_congr_left fun q hq => by simp [hall q hq]
      rw [h1, List.map_id]
    simp [hfix]

/-- A list of only-blank documents builds no point and makes no call. -/
theorem buildPoints_all_blank (embed : String → Except String (List Rat))
    (sha256 : List Nat → Nat) (docs : List String)
    (h : ∀ d ∈ docs, pyStrip d = "") :
    buildPoints embed sha256 docs = (.ok [], []) := by
  induction docs with
  | nil => rfl
  | cons d rest ih =>
      have hd := h d (List.mem_cons_self d rest)
      simp [buildPoints, hd, ih fun x hx => h x (List.mem_cons_of_mem d hx)]

/-- Every event of the document loop is an embedding call for a document
that is nonempty after stripping. -/
theorem buildPoints_events_embed (embed : String → Except String (List Rat))
    (sha256 : List Nat → Nat) :
    ∀ docs ev, ev ∈ (buildPoints embed sha256 docs).2 →
      ∃ d, ev = .embedCall d ∧ ¬(pyStrip d = "") := by
  intro docs
  induction docs with
  | nil => intro ev h; simp [buildPoints] at h
  | cons d rest ih =>
      intro ev h
      by_cases hd : pyStrip d = ""
      · rw [show buildPoints embed sha256 (d :: rest) =
            buildPoints embed sha256 rest by simp [buildPoints, hd]] at h
        exact ih ev h
      · cases he : embed d with
        | error e =>
            simp [buildPoints, hd, he] at h
            exact ⟨d, h, hd⟩
        | ok vec =>
            rcases hres : buildPoints embed sha256 rest with ⟨res, evs⟩
            rw [hres] at ih
            cases res <;>
            · simp [buildPoints, hd, he, hres] at h
              rcases h with h | h
              · exact ⟨d, h, hd⟩
              · exact ih ev h

/-- Every point built by the document loop carries a document that is
nonempty after stripping. -/
theorem buildPoints_ok_points (embed : String → Except String (List Rat))
    (sha256 : List Nat → Nat) :
    ∀ docs ps evs, buildPoints embed sha256 docs = (.ok ps, evs) →
      ∀ p ∈ ps, ¬(pyStrip p.text = "") := by
  intro docs
  induction docs with
  | nil =>
      intro ps evs h p hp
      simp [buildPoints] at h
      rw [h.1] at hp
      simp at hp
  | cons d rest ih =>
      intro ps evs h p hp
      by_cases hd : pyStrip d = ""
      · rw [show buildPoints embed sha256 (d :: rest) =
            buildPoints embed sha256 rest by simp [buildPoints, hd]] at h
        exact ih ps evs h p hp
      · cases he : embed d with
        | error e => simp [buildPoints, hd, he] at h
        | ok vec =>
            rcases hres : buildPoints embed sha256 rest with ⟨res, evs0⟩
            cases res with
            | error e => simp [buildPoints, hd, he, hres] at h
            | ok ps0 =>
                simp [buildPoints, hd, he, hres] at h
                rw [← h.1] at hp
                rcases List.mem_cons.mp hp with rfl | hp0
                · simpa using hd
                · exact ih ps0 evs0 hres p hp0

/-! ## Claim C6: idempotent ingestion -/

/-- Claim C6: the document id is a pure function of the document text —
the SHA-256 digest of its UTF-8 encoding reduced into [0, 2^63) — so
ingesting the same text twice derives the same id both times and the
second ingestion upserts onto the same record, leaving the stored
collection exactly as after the first ingestion (no duplication). -/
theorem claim6_idempotent_ingestion
    (embed : String → Except String (List Rat)) (sha256 : List Nat → Nat)
    (idx : VectorIndex) (d : String) (vec : List Rat)
    (hd : ¬(pyStrip d = "")) (he : embed d = .ok vec) :
    pointId sha256 d < 2 ^ 63 ∧
    (addDocuments embed sha256 idx [d]).1 =
      .ok (upsertPoint idx ⟨pointId sha256 d, vec, d⟩) ∧
    (addDocuments embed sha256 (upsertPoint idx ⟨pointId sha256 d, vec, d⟩) [d]).1 =
      .ok (upsertPoint idx ⟨pointId sha256 d, vec, d⟩) := by
  refine ⟨Nat.mod_lt _ (by norm_num), ?_, ?_⟩
  · simp [addDocuments, buildPoints, hd, he, upsertPoints]
  · simp [addDocuments, buildPoints, hd, he, upsertPoints, upsertPoint_idem]

/-- Witness for C6 at a concrete input: ingesting `"doc"` into the empty
collection, then ingesting it again. -/
theorem claim6_witness :
    (¬(pyStrip "doc" = "") ∧ embedOk "doc" = .ok [1]) ∧
    (pointId shaLen "doc" < 2 ^ 63 ∧
     (addDocuments embedOk shaLen [] ["doc"]).1 =
       .ok (upsertPoint [] ⟨pointId shaLen "doc", [1], "doc"⟩) ∧
     (addDocuments embedOk shaLen (upsertPoint [] ⟨pointId shaLen "doc", [1], "doc"⟩) ["doc"]).1 =
       .ok (upsertPoint [] ⟨pointId shaLen "doc", [1], "doc"⟩)) :=
  ⟨⟨by decide, rfl⟩,
    claim6_idempotent_ingestion embedOk shaLen [] "doc" [1] (by decide) rfl⟩

/-! ## Claim C9: blank documents are skipped -/

/-- Claim C9: documents that are empty or whitespace-only are skipped by
`add_documents` — no embedding call is made for them and no upserted
point carries them — and an input of only such documents (or an empty
input) returns without issuing any upsert or embedding call at all. -/
theorem claim9_skip_blank_documents
    (embed : String → Except String (List Rat)) (sha256 : List Nat → Nat)
    (idx : VectorIndex) (documents : List String) :
    ((∀ d ∈ documents, pyStrip d = "") →
        addDocuments embed sha256 idx documents = (.ok idx, [])) ∧
    (∀ d, pyStrip d = "" →
        IngestEvent.embedCall d ∉ (addDocuments embed sha256 idx documents).2) ∧
    (∀ ps, IngestEvent.upsertCall ps ∈ (addDocuments embed sha256 idx documents).2 →
        ∀ p ∈ ps, ¬(pyStrip p.text = "")) := by
  refine ⟨?_, ?_, ?_⟩
  · intro h
    by_cases hemp : documents.isEmpty
    · simp [addDocuments, hemp]
    · simp [addDocuments, hemp, buildPoints_all_blank embed sha256 documents h]
  · intro d hd hmem
    by_cases hemp : documents.isEmpty
    · simp [addDocuments, hemp] at hmem
    · rcases hres : buildPoints embed sha256 documents with ⟨res, evs⟩
      have hevs : ∀ ev ∈ evs, ∃ d0, ev = .embedCall d0 ∧ ¬(pyStrip d0 = "") := by
        intro ev hev
        exact buildPoints_events_embed embed sha256 documents ev (by rw [hres]; exact hev)
      cases res with
      | error e =>
          simp [addDocuments, hemp, hres] at hmem
          obtain ⟨d0, hd0, hne⟩ := hevs _ hmem
          obtain rfl : d = d0 := by injection hd0
          exact hne hd
      | ok ps =>
          by_cases hps : ps.isEmpty
          · simp [addDocuments, hemp, hres, hps] at hmem
            obtain ⟨d0, hd0, hne⟩ := hevs _ hmem
            obtain rfl : d = d0 := by injection hd0
            exact hne hd
          · simp [addDocuments, hemp, hres, hps] at hmem
            obtain ⟨d0, hd0, hne⟩ := hevs _ hmem
            obtain rfl : d = d0 := by injection hd0
            exact hne hd
  · intro ps hmem p hp
    by_cases hemp : documents.isEmpty
    · simp [addDocuments, hemp] at hmem
    · rcases hres : buildPoints embed sha256 documents with ⟨res, evs⟩
      cases res with
      | error e =>
          simp [addDocuments, hemp, hres] at hmem
          obtain ⟨d0, hd0, _⟩ :=
            buildPoints_events_embed embed sha256 documents _ (by rw [hres]; exact hmem)
          simp at hd0
      | ok ps0 =>
          by_cases hps : ps0.isEmpty
          · simp [addDocuments, hemp, hres, hps] at hmem
            obtain ⟨d0, hd0, _⟩ :=
              buildPoints_events_embed embed sha256 documents _ (by rw [hres]; exact hmem)
            simp at hd0
          · simp [addDocuments, hemp, hres, hps] at hmem
            rcases hmem with hmem | rfl
            · obtain ⟨d0, hd0, _⟩ :=
                buildPoints_events_embed embed sha256 documents _ (by rw [hres]; exact hmem)
              simp at hd0
            · exact buildPoints_ok_points embed sha256 documents ps evs hres p hp

/-- Witness for C9 at a concrete input: a list of one empty and one
whitespace document produces no call and no upsert. -/
theorem claim9_witness :
    (∀ d ∈ (["", "  "] : List String), pyStrip d = "") ∧
    addDocuments embedOk shaLen [] ["", "  "] = (.ok [], []) :=
  ⟨by decide,
    (claim9_skip_blank_documents embedOk shaLen [] ["", "  "]).1 (by decide)⟩

/-! ## Claim C8: bounded cache with exact eviction -/

/-- Claim C8: the cache is bounded at `cacheMaxsize = 1024` entries and
eviction is exact.  For every put of a new key while the cache holds 1024
live (unexpired) entries, exactly one previously present live entry — the
least recently used one — is evicted: it is gone afterwards, every other
live entry survives, the just-inserted entry is not the one evicted, no
entry other than the inserted one appears, and the entry count stays at
1024.  Moreover (final conjunct) a put never grows any cache beyond 1024
entries. -/
theorem claim8_bounded_eviction (c : QuestionCache) (k : String)
    (v : QAResult) (now : Nat)
    (hNodup : ((expire c now).map CacheEntry.key).Nodup)
    (hLen : (expire c now).length = cacheMaxsize)
    (hNew : lookupEntry (expire c now) k = none) :
    (∃ e0 ∈ expire c now, e0.key ≠ k ∧
      e0 ∉ cachePut c k v now ∧
      (∀ x ∈ expire c now, x ≠ e0 → x ∈ cachePut c k v now)) ∧
    (⟨k, v, now + cacheTTL⟩ : CacheEntry) ∈ cachePut c k v now ∧
    (cachePut c k v now).length = cacheMaxsize ∧
    (∀ x ∈ cachePut c k v now,
        x = ⟨k, v, now + cacheTTL⟩ ∨ x ∈ expire c now) ∧
    (∀ c2 : QuestionCache, c2.length ≤ cacheMaxsize →
        (cachePut c2 k v now).length ≤ cacheMaxsize) := by
  have hall : ∀ x ∈ expire c now, x.key ≠ k := lookupEntry_eq_none_iff.mp hNew
  have hput : cachePut c k v now =
      (expire c now).drop 1 ++ [⟨k, v, now + cacheTTL⟩] := by
    unfold cachePut
    rw [if_neg (by simp [hNew])]
    rw [hLen]
    have hone : cacheMaxsize + 1 - cacheMaxsize = 1 := by omega
    rw [hone]
  have hpos : expire c now ≠ [] := by
    intro hnil
    rw [hnil] at hLen
    simp [cacheMaxsize] at hLen
  obtain ⟨e0, rest, hsplit⟩ := List.exists_cons_of_ne_nil hpos
  have hdrop : (expire c now).drop 1 = rest := by rw [hsplit]; rfl
  have he0 : e0 ∈ expire c now := by
    rw [hsplit]; exact List.mem_cons_self e0 rest
  have he0k : e0.key ≠ k := hall e0 he0
  have hNodupE : (expire c now).Nodup := hNodup.of_map
  have he0rest : e0 ∉ rest := by
    rw [hsplit] at hNodupE
    exact (List.nodup_cons.mp hNodupE).1
  refine ⟨⟨e0, he0, he0k, ?_, ?_⟩, ?_, ?_, ?_, ?_⟩
  · rw [hput, hdrop]
    intro hmem
    rcases List.mem_append.mp hmem with h | h
    · exact he0rest h
    · simp only [List.mem_singleton] at h
      rw [h] at he0k
      exact he0k rfl
  · intro x hx hne
    rw [hput, hdrop]
    apply List.mem_append_left
    rw [hsplit] at hx
    rcases List.mem_cons.mp hx with rfl | h
    · exact absurd rfl hne
    · exact h
  · rw [hput]
    exact List.mem_append_right _ (List.mem_singleton.mpr rfl)
  · rw [hput, hdrop, List.length_append]
    rw [hsplit] at hLen
    simp only [List.length_cons, List.length_nil, List.length_singleton] at hLen ⊢
    omega
  · intro x hx
    rw [hput, hdrop] at hx
    rcases List.mem_append.mp hx with h | h
    · right; rw [hsplit]; exact List.mem_cons_of_mem e0 h
    · left; simpa using h
  · intro c2 hc2
    unfold cachePut
    by_cases hl : (lookupEntry (expire c2 now) k).isSome = true
    · rw [if_pos hl]
      obtain ⟨e, he, hek⟩ := exists_key_of_lookup_isSome hl
      have hfl : ((expire c2 now).filter fun x => decide (x.key ≠ k)).length <
          (expire c2 now).length := by
        apply List.length_filter_lt_length_iff_exists.mpr
        exact ⟨e, he, by simp [hek]⟩
      have hexp : (expire c2 now).length ≤ c2.length :=
        List.length_filter_le _ _
      have hM : cacheMaxsize = 1024 := rfl
      rw [List.length_append]
      simp only [List.length_cons, List.length_nil, List.length_singleton]
      omega
    · rw [if_neg hl]
      have hexp : (expire c2 now).length ≤ c2.length :=
        List.length_filter_le _ _
      have hM : cacheMaxsize = 1024 := rfl
      rw [List.length_append, List.length_drop]
      simp only [List.length_cons, List.length_nil, List.length_singleton]
      omega

/-! Witness machinery for C8: a concrete cache of 1024 distinct live
entries. -/

theorem natKey_injective : Function.Injective natKey := by
  intro i j h
  have h2 := congrArg String.length h
  simp [natKey, String.length] at h2
  omega

theorem mkCache_key_map (n : Nat) :
    (mkCache n).map CacheEntry.key = (List.range n).map natKey := by
  unfold mkCache
  rw [List.map_map]
  rfl

theorem mkCache_nodup (n : Nat) : ((mkCache n).map CacheEntry.key).Nodup := by
  rw [mkCache_key_map]
  exact List.Nodup.map natKey_injective (List.nodup_range n)

theorem mkCache_length (n : Nat) : (mkCache n).length = n := by
  simp [mkCache]

theorem expire_mkCache (n : Nat) : expire (mkCache n) 50 = mkCache n := by
  unfold expire
  apply List.filter_eq_self.mpr
  intro e he
  unfold mkCache at he
  obtain ⟨i, _, rfl⟩ := List.mem_map.mp he
  simp

theorem natKey_ne_b (i : Nat) : natKey i ≠ "b" := by
  intro h
  have hlen := congrArg String.length h
  have hb : ("b" : String).length = 1 := rfl
  simp [natKey, String.length, hb] at hlen
  obtain rfl : i = 0 := by omega
  exact absurd h (by decide)

theorem lookup_mkCache_b : lookupEntry (mkCache 1024) "b" = none := by
  apply lookupEntry_eq_none_iff.mpr
  intro e he
  unfold mkCache at he
  obtain ⟨i, _, rfl⟩ := List.mem_map.mp he
  exact natKey_ne_b i

/-- Witness for C8 at a concrete input: a full cache of 1024 distinct
unexpired entries receiving a new key. -/
theorem claim8_witness :
    (((expire (mkCache 1024) 50).map CacheEntry.key).Nodup ∧
     (expire (mkCache 1024) 50).length = cacheMaxsize ∧
     lookupEntry (expire (mkCache 1024) 50) "b" = none) ∧
    ((∃ e0 ∈ expire (mkCache 1024) 50, e0.key ≠ "b" ∧
        e0 ∉ cachePut (mkCache 1024) "b" stockResult 50 ∧
        (∀ x ∈ expire (mkCache 1024) 50, x ≠ e0 →
          x ∈ cachePut (mkCache 1024) "b" stockResult 50)) ∧
     (⟨"b", stockResult, 50 + cacheTTL⟩ : CacheEntry) ∈
        cachePut (mkCache 1024) "b" stockResult 50 ∧
     (cachePut (mkCache 1024) "b" stockResult 50).length = cacheMaxsize ∧
     (∀ x ∈ cachePut (mkCache 1024) "b" stockResult 50,
        x = ⟨"b", stockResult, 50 + cacheTTL⟩ ∨ x ∈ expire (mkCache 1024) 50) ∧
     (∀ c2 : QuestionCache, c2.length ≤ cacheMaxsize →
        (cachePut c2 "b" stockResult 50).length ≤ cacheMaxsize)) := by
  have h1 : ((expire (mkCache 1024) 50).map CacheEntry.key).Nodup := by
    rw [expire_mkCache]; exact mkCache_nodup 1024
  have h2 : (expire (mkCache 1024) 50).length = cacheMaxsize := by
    rw [expire_mkCache, mkCache_length]
    rfl
  have h3 : lookupEntry (expire (mkCache 1024) 50) "b" = none := by
    rw [expire_mkCache]; exact lookup_mkCache_b
  exact ⟨⟨h1, h2, h3⟩,
    claim8_bounded_eviction (mkCache 1024) "b" stockResult 50 h1 h2 h3⟩

end IAI

